import Mathlib

/-!
Verification development for the Cohere provider adapter of the mcp-rig
repository (src/crates/mcp-rig/src/providers/cohere.rs).

The adapter's data model and conversion functions are embedded shallowly:
JSON values become an inductive `Json` (numbers as exact rationals),
fallible conversions become `Except`, and the `.expect(...)` panics of the
Rust code become an explicit `ConvOutcome.panicked` outcome.  Embedding
vector entries (`f64` in the source) are an opaque type parameter `F`
because the adapter never inspects them, only moves them.

Canonical-model types (`message::Message`, `completion::ToolDefinition`,
`completion::CompletionRequest`, ...) live in the rig crate outside the
provided sources; they are modelled from the spec where noted.
-/

namespace McpRig

/-- JSON values as produced/consumed by the adapter; numbers are modelled as
exact rationals (the adapter only moves numbers, it never computes with
them). Objects are association lists in insertion order. -/
inductive Json where
  | null
  | bool (b : Bool)
  | num (q : Rat)
  | str (s : String)
  | arr (elems : List Json)
  | obj (fields : List (String × Json))

/-- Association-list lookup, the model of `serde_json::Map::get`. -/
def lookupField : List (String × Json) → String → Option Json
  | [], _ => none
  | (k, v) :: rest, key => if k = key then some v else lookupField rest key

/-- Model of `serde_json::Value::get(key)` on a value. -/
def Json.getField : Json → String → Option Json
  | .obj fields, key => lookupField fields key
  | _, _ => none

/-- Model of `serde_json::Value::as_str`. -/
def Json.asStr : Json → Option String
  | .str s => some s
  | _ => none

/-- Model of `serde_json::Value::as_array`. -/
def Json.asArray : Json → Option (List Json)
  | .arr elems => some elems
  | _ => none

/-- Model of `serde_json::Value::as_object` (fields in order). -/
def Json.asObject : Json → Option (List (String × Json))
  | .obj fields => some fields
  | _ => none

namespace json_utils

mutual
/-- Modelled from the spec: `json_utils::merge` (the rig crate source is not
under src/).  Per the spec, `additional_params` is "merged over the generated
body with caller values taking precedence on key conflicts (recursive merge
for nested objects, override for scalars and arrays)".  `merge base upd`
recursively merges `upd` over `base`. -/
def merge : Json → Json → Json
  | .obj fa, .obj fb =>
      .obj (mergeInto fa fb ++ fb.filter (fun kv => (lookupField fa kv.1).isNone))
  | _, b => b

/-- Merges each base field with the update value of the same key, if any. -/
def mergeInto : List (String × Json) → List (String × Json) → List (String × Json)
  | [], _ => []
  | (k, v) :: rest, fb =>
      (match lookupField fb k with
       | some uv => (k, merge v uv)
       | none => (k, v)) :: mergeInto rest fb
end

end json_utils

namespace cohere

/-- Wire error payload (`ApiErrorResponse` in cohere.rs). -/
structure ApiErrorResponse where
  message : String

/-- Untagged success-or-error wire envelope (`ApiResponse<T>` in cohere.rs). -/
inductive ApiResponse (α : Type) where
  | ok (val : α)
  | err (e : ApiErrorResponse)

/-- Billing metadata of an embedding response (`BilledUnits`). -/
structure BilledUnits where
  input_tokens : Nat
  output_tokens : Nat
  search_units : Nat
  classifications : Nat

/-- API version metadata (`ApiVersion`). -/
structure ApiVersion where
  version : String
  is_deprecated : Option Bool
  is_experimental : Option Bool

/-- Embedding response metadata (`Meta`). -/
structure Meta where
  api_version : ApiVersion
  billed_units : BilledUnits
  warnings : List String

/-- Wire embedding response (`EmbeddingResponse`); vector entries are the
opaque scalar type `F` (`f64` in the source, never inspected). -/
structure EmbeddingResponse (F : Type) where
  response_type : Option String
  id : String
  embeddings : List (List F)
  texts : List String
  meta : Option Meta

/-- Canonical embedding (`embeddings::Embedding` of the rig crate): the
original document paired with its vector. -/
structure Embedding (F : Type) where
  document : String
  vec : List F

/-- Embedding-side error taxonomy (`embeddings::EmbeddingError`), restricted
to the variants the adapter produces. -/
inductive EmbeddingError where
  | documentError (msg : String)
  | providerError (msg : String)

/-- The count-mismatch message of `embed_texts` (the `format!` call of
cohere.rs lines 247-252). -/
def mismatchMsg (n m : Nat) : String :=
  s!"Expected {n} embeddings, got {m}"

/-- Model of `EmbeddingModel::embed_texts` from the point where the HTTP
response has arrived with 2xx status and parsed into `ApiResponse`
(cohere.rs lines 233-267): reject a count mismatch as `DocumentError`,
otherwise zip the returned vectors with the input documents in order. -/
def embed_texts (F : Type) (documents : List String)
    (response : ApiResponse (EmbeddingResponse F)) :
    Except EmbeddingError (List (Embedding F)) :=
  match response with
  | .ok r =>
      if r.embeddings.length ≠ documents.length then
        .error (.documentError (mismatchMsg documents.length r.embeddings.length))
      else
        .ok ((r.embeddings.zip documents).map
          (fun p => { document := p.2, vec := p.1 }))
  | .err e => .error (.providerError e.message)

/-- The `MAX_DOCUMENTS` constant of the embedding adapter. -/
def MAX_DOCUMENTS : Nat := 96

/-- Completion model name constant `COMMAND_R_PLUS` (cohere.rs line 289),
documented there as the `command-r-plus` completion model. -/
def COMMAND_R_PLUS : String := "comman-r-plus"

/-- Completion model name constant `COMMAND_R`. -/
def COMMAND_R : String := "command-r"

/-- Completion model name constant `COMMAND`. -/
def COMMAND : String := "command"

end cohere

namespace completion

/-- Modelled from the spec: the canonical `completion::ToolDefinition` of the
rig crate (its source is not under src/): "name, description,
JSON-schema-like parameter spec" with `parameters` holding `properties` and
an optional `required` list. -/
structure ToolDefinition where
  name : String
  description : String
  parameters : Json

end completion

namespace cohere

/-- Cohere wire tool parameter (`Parameter` in cohere.rs). -/
structure Parameter where
  description : String
  type : String
  required : Bool

/-- Cohere wire tool declaration (`ToolDefinition` in cohere.rs); the
`parameter_definitions` HashMap is modelled as an association list built in
the iteration order of the canonical properties. -/
structure ToolDefinition where
  name : String
  description : String
  parameter_definitions : List (String × Parameter)

/-- Inner helper `convert_type_str` of the tool conversion (cohere.rs lines
416-426): known primitive type names map to themselves, anything else
defaults to "string". -/
def convert_type_str (t : String) : String :=
  match t with
  | "string" => "string"
  | "number" => "number"
  | "integer" => "integer"
  | "boolean" => "boolean"
  | "array" => "array"
  | "object" => "object"
  | _ => "string"

/-- Helper `convert_type` of the tool conversion (cohere.rs lines 415-438):
a string type is mapped by `convert_type_str`; an array (union) type picks
its first member whose string form is not "null" and maps that (defaulting
to "string"); any other JSON value becomes "string". -/
def convert_type (t : Json) : String :=
  match t with
  | .str s => convert_type_str s
  | .arr types =>
      convert_type_str
        (((types.find? (fun t => t.asStr ≠ some "null")).bind Json.asStr).getD "string")
  | _ => "string"

/-- Outcome of a conversion that the Rust code performs with `.expect(...)`:
either a value or a panic (process abort) with the expect message. -/
inductive ConvOutcome (α : Type) where
  | ok (val : α)
  | panicked (msg : String)

/-- Conversion of one property of the canonical schema into a Cohere
`Parameter` (the closure body of cohere.rs lines 462-478), with each
`.expect` modelled as a panic outcome. -/
def convertProperty (maybe_required : List String) (argname : String)
    (argdef : Json) : ConvOutcome Parameter :=
  match argdef.getField "description" with
  | none => .panicked "Argument description should exist"
  | some d =>
      match d.asStr with
      | none => .panicked "Argument description should be a string"
      | some desc =>
          match argdef.getField "type" with
          | none => .panicked "Argument type should exist"
          | some t =>
              .ok { description := desc
                    type := convert_type t
                    required := maybe_required.contains argname }

/-- Conversion of all properties in order, stopping at the first panic
(models the `.map(...).collect` of cohere.rs lines 461-479). -/
def convertProperties (maybe_required : List String) :
    List (String × Json) → ConvOutcome (List (String × Parameter))
  | [] => .ok []
  | (argname, argdef) :: rest =>
      match convertProperty maybe_required argname argdef with
      | .panicked m => .panicked m
      | .ok p =>
          match convertProperties maybe_required rest with
          | .panicked m => .panicked m
          | .ok ps => .ok ((argname, p) :: ps)

/-- Model of `impl From<completion::ToolDefinition> for ToolDefinition`
(cohere.rs lines 413-482): reads the optional `required` string list, then
requires `properties` to exist and be an object, converting each property;
every `.expect` is a panic outcome. -/
def toolDefinitionFrom (tool : completion.ToolDefinition) :
    ConvOutcome ToolDefinition :=
  let maybe_required :=
    (((tool.parameters.getField "required").bind Json.asArray).map
      (fun req => req.filterMap Json.asStr)).getD []
  match tool.parameters.getField "properties" with
  | none => .panicked "Tool properties should exist"
  | some props =>
      match props.asObject with
      | none => .panicked "Tool properties should be an object"
      | some propFields =>
          match convertProperties maybe_required propFields with
          | .panicked m => .panicked m
          | .ok defs =>
              .ok { name := tool.name
                    description := tool.description
                    parameter_definitions := defs }

/-- Cohere wire tool call (`ToolCall` in cohere.rs): a name and structured
parameters, with no separate id field. -/
structure ToolCall where
  name : String
  parameters : Json

/-- Citation entry of the wire completion response (`Citation`). -/
structure Citation where
  start : Nat
  finish : Nat
  text : String
  document_ids : List String

/-- Document entry of the wire completion response (`Document`). -/
structure Document where
  id : String
  additional_prop : List (String × Json)

/-- Search query of the wire completion response (`SearchQuery`). -/
structure SearchQuery where
  text : String
  generation_id : String

/-- Connector of a search result (`Connector`). -/
structure Connector where
  id : String

/-- Search result of the wire completion response (`SearchResult`). -/
structure SearchResult where
  search_query : SearchQuery
  connector : Connector
  document_ids : List String
  error_message : Option String
  continue_on_failure : Bool

/-- Chat history entry of the wire completion response (`ChatHistory`). -/
structure ChatHistory where
  role : String
  message : String

/-- Cohere wire completion response (`CompletionResponse` in cohere.rs). -/
structure CompletionResponse where
  text : String
  generation_id : String
  citations : List Citation
  documents : List Document
  is_search_required : Option Bool
  search_queries : List SearchQuery
  search_results : List SearchResult
  finish_reason : String
  tool_calls : List ToolCall
  chat_history : List ChatHistory

end cohere

namespace completion

/-- Modelled from the spec: canonical assistant content of the rig crate
(`AssistantContent` is "{Text} or {ToolCall}"); `toolCall` carries an
identifier, a name and structured arguments. -/
inductive AssistantContent where
  | text (text : String)
  | toolCall (id : String) (name : String) (arguments : Json)

end completion

namespace cohere

/-- Model of `impl From<CompletionResponse> for
completion::CompletionResponse<CompletionResponse>` (cohere.rs lines
322-348), restricted to the `choice` it constructs: if the wire response
has tool calls, each becomes a ToolCall entry carrying the call name as
both identifier and name; otherwise the wire text becomes a single Text
entry. -/
def completionResponseChoice (response : CompletionResponse) :
    List completion.AssistantContent :=
  if !response.tool_calls.isEmpty then
    response.tool_calls.map
      (fun tc => completion.AssistantContent.toolCall tc.name tc.name tc.parameters)
  else
    [completion.AssistantContent.text response.text]

end cohere

namespace message

/-- Modelled from the spec: the text content part of the rig message model
(`message::Text`). -/
structure Text where
  text : String

/-- Modelled from the spec: canonical user content parts ("a part is one of
{Text, ToolCall, ToolResult, Image-or-other-media}"); user messages carry
text, tool results, or media parts. -/
inductive UserContent where
  | text (t : Text)
  | toolResult (id : String) (content : List Json)
  | image (data : String)
  | audio (data : String)

/-- Modelled from the spec: canonical message roles, a "tagged union over
{User, Assistant, Tool, System}"; only the `user` arm is inspected by the
Cohere adapter, every other arm is rejected. -/
inductive Message where
  | user (content : List UserContent)
  | assistant (content : List completion.AssistantContent)
  | tool (id : String) (content : List Json)
  | system (content : String)

/-- Message conversion error of the rig crate (`message::MessageError`),
restricted to the variant the Cohere adapter produces. -/
inductive MessageError where
  | conversionError (msg : String)

end message

namespace cohere

/-- Cohere wire tool result (`ToolResult` in cohere.rs). -/
structure ToolResult where
  call : ToolCall
  outputs : List Json

/-- Cohere wire chat message (`Message` in cohere.rs), serde-tagged by role
in UPPERCASE. -/
inductive Message where
  | user (message : String) (tool_calls : List ToolCall)
  | chatbot (message : String) (tool_calls : List ToolCall)
  | tool (tool_results : List ToolResult)
  | system (content : String) (tool_calls : List ToolCall)

/-- Conversion of the content parts of one canonical user message (the
closure of cohere.rs lines 520-533): each text part becomes one wire user
message, any other part kind is a conversion error. -/
def userContentsToMessages : List message.UserContent →
    Except message.MessageError (List Message)
  | [] => .ok []
  | c :: rest =>
      match c with
      | .text t =>
          match userContentsToMessages rest with
          | .ok ms => .ok (Message.user t.text [] :: ms)
          | .error e => .error e
      | _ =>
          .error (.conversionError "Only text content is supported by Cohere")

/-- Model of `impl TryFrom<message::Message> for Vec<Message>` (cohere.rs
lines 514-540): a user message expands to one wire user message per text
part; every non-user message is a conversion error. -/
def messageTryInto (m : message.Message) :
    Except message.MessageError (List Message) :=
  match m with
  | .user content => userContentsToMessages content
  | _ => .error (.conversionError "Only user messages are supported by Cohere")

end cohere

namespace completion

/-- Completion-side error taxonomy (`completion::CompletionError`),
restricted to the variants the Cohere adapter produces. -/
inductive CompletionError where
  | requestError (msg : String)
  | providerError (msg : String)

/-- Modelled from the spec: the canonical `completion::CompletionRequest`
of the rig crate (its source is not under src/): preamble, prompt message,
chat history, documents, tools, temperature and raw
`additional_params` overrides.  Documents are kept as opaque JSON. -/
structure CompletionRequest where
  preamble : Option String
  prompt : message.Message
  chat_history : List message.Message
  documents : List Json
  temperature : Option Rat
  tools : List ToolDefinition
  additional_params : Option Json

end completion

/-- Modelled from the spec: the rig crate maps message conversion errors
into the completion error taxonomy when the adapter propagates them with
the try operator ("Always surfaced to the caller; never silently
downgraded"). -/
def McpRigMessageErrorInto : message.MessageError → completion.CompletionError
  | .conversionError m => .requestError m

namespace cohere

/-- Serialization of a wire tool call (serde `Serialize` for `ToolCall`). -/
def jsonOfToolCall (tc : ToolCall) : Json :=
  .obj [("name", .str tc.name), ("parameters", tc.parameters)]

/-- Serialization of a wire tool result (serde `Serialize` for
`ToolResult`). -/
def jsonOfToolResult (tr : ToolResult) : Json :=
  .obj [("call", jsonOfToolCall tr.call), ("outputs", .arr tr.outputs)]

/-- Serialization of a wire chat message: serde tags by `role` with the
variant name uppercased (`rename_all = "UPPERCASE"`). -/
def jsonOfMessage : Message → Json
  | .user m tcs =>
      .obj [("role", .str "USER"), ("message", .str m),
            ("tool_calls", .arr (tcs.map jsonOfToolCall))]
  | .chatbot m tcs =>
      .obj [("role", .str "CHATBOT"), ("message", .str m),
            ("tool_calls", .arr (tcs.map jsonOfToolCall))]
  | .tool trs =>
      .obj [("role", .str "TOOL"),
            ("tool_results", .arr (trs.map jsonOfToolResult))]
  | .system c tcs =>
      .obj [("role", .str "SYSTEM"), ("content", .str c),
            ("tool_calls", .arr (tcs.map jsonOfToolCall))]

/-- Serialization of a wire tool parameter (serde `Serialize` for
`Parameter`; the raw-identifier field `r#type` serializes as "type"). -/
def jsonOfParameter (p : Parameter) : Json :=
  .obj [("description", .str p.description), ("type", .str p.type),
        ("required", .bool p.required)]

/-- Serialization of a wire tool declaration (serde `Serialize` for
`ToolDefinition`). -/
def jsonOfToolDefinition (td : ToolDefinition) : Json :=
  .obj [("name", .str td.name), ("description", .str td.description),
        ("parameter_definitions",
         .obj (td.parameter_definitions.map (fun kv => (kv.1, jsonOfParameter kv.2))))]

/-- Serialization of an optional string field (`Option<String>` becomes
the value or JSON null). -/
def jsonOfOptionStr : Option String → Json
  | some s => .str s
  | none => .null

/-- Serialization of an optional numeric field (`Option<f64>` becomes the
value or JSON null). -/
def jsonOfOptionNum : Option Rat → Json
  | some q => .num q
  | none => .null

/-- Outcome of one execution of the completion adapter body: a value, a
typed error returned to the caller, or a panic (process abort) raised by an
`.expect` inside the tool conversion. -/
inductive RunResult (α : Type) where
  | ok (val : α)
  | err (e : completion.CompletionError)
  | panicked (msg : String)

/-- Conversion of the whole chat history (cohere.rs lines 565-572):
convert each canonical message, failing on the first error, then flatten. -/
def chatHistoryConv : List message.Message →
    Except message.MessageError (List Message)
  | [] => .ok []
  | m :: rest =>
      match messageTryInto m with
      | .error e => .error e
      | .ok ms =>
          match chatHistoryConv rest with
          | .error e => .error e
          | .ok rs => .ok (ms ++ rs)

/-- Conversion of the prompt's content parts into their text (the closure
of cohere.rs lines 575-583): text parts pass through, anything else is a
request error. -/
def promptTexts : List message.UserContent →
    Except completion.CompletionError (List String)
  | [] => .ok []
  | c :: rest =>
      match c with
      | .text t =>
          match promptTexts rest with
          | .ok ts => .ok (t.text :: ts)
          | .error e => .error e
      | _ =>
          .error (.requestError "Only text content is supported by Cohere")

/-- Conversion of the prompt message (cohere.rs lines 574-589): a user
message's text parts are joined with newlines; any other role is a request
error. -/
def promptConv (prompt : message.Message) :
    Except completion.CompletionError String :=
  match prompt with
  | .user content =>
      match promptTexts content with
      | .ok ts => .ok (String.intercalate "\n" ts)
      | .error e => .error e
  | _ => .error (.requestError "Only user messages are supported by Cohere")

/-- Conversion of the request's tool definitions (the
`map(ToolDefinition::from)` of cohere.rs line 598); a panic in any single
conversion aborts the whole call. -/
def toolsConv : List completion.ToolDefinition → ConvOutcome (List ToolDefinition)
  | [] => .ok []
  | t :: ts =>
      match toolDefinitionFrom t with
      | .panicked m => .panicked m
      | .ok d =>
          match toolsConv ts with
          | .panicked m => .panicked m
          | .ok ds => .ok (d :: ds)

/-- The adapter-generated wire request body (the `json!` literal of
cohere.rs lines 591-599), produced after chat history, prompt and tool
conversion have all succeeded; any conversion error or panic short-circuits
in source order (history first, then prompt, then tools). -/
def buildRequestCore (model : String) (req : completion.CompletionRequest) :
    RunResult Json :=
  match chatHistoryConv req.chat_history with
  | .error e => .err (McpRigMessageErrorInto e)
  | .ok hist =>
      match promptConv req.prompt with
      | .error e => .err e
      | .ok msg =>
          match toolsConv req.tools with
          | .panicked m => .panicked m
          | .ok tools =>
              .ok (.obj
                [("model", .str model),
                 ("preamble", jsonOfOptionStr req.preamble),
                 ("message", .str msg),
                 ("documents", .arr req.documents),
                 ("chat_history", .arr (hist.map jsonOfMessage)),
                 ("temperature", jsonOfOptionNum req.temperature),
                 ("tools", .arr (tools.map jsonOfToolDefinition))])

/-- Outcome of the single HTTP POST of the completion adapter: a 2xx
response parsed into the success-or-error envelope, or a non-2xx response
with its body text. -/
inductive TransportResponse where
  | success (r : ApiResponse CompletionResponse)
  | failure (text : String)

/-- Cohere completion model adapter (`CompletionModel`); the HTTP client is
abstracted away as the `transport` argument of `completion`. -/
structure CompletionModel where
  model : String

/-- Model of `CompletionModel::completion` (cohere.rs lines 561-623).  The
HTTP layer is the `transport` argument; the first component of the result
lists every wire body POSTed during the execution, in order, so "zero
network calls" is the statement that this list is empty.  The body sent is
the generated request with `additional_params` merged over it when present.
A 2xx success payload is converted to the canonical choice; an error
payload or non-2xx response becomes a provider error. -/
def completionRun (transport : Json → TransportResponse)
    (self : CompletionModel) (req : completion.CompletionRequest) :
    List Json × RunResult (List completion.AssistantContent) :=
  match buildRequestCore self.model req with
  | .err e => ([], .err e)
  | .panicked m => ([], .panicked m)
  | .ok request =>
      let body :=
        match req.additional_params with
        | some params => json_utils.merge request params
        | none => request
      ([body],
        match transport body with
        | .success (.ok c) => .ok (completionResponseChoice c)
        | .success (.err e) => .err (.providerError e.message)
        | .failure t => .err (.providerError t))

end cohere

/-! Concrete sample inputs used by the witness theorems. -/

/-- A transport stub that would report failure if it were ever reached. -/
def sampleTransport : Json → cohere.TransportResponse :=
  fun _ => .failure "unreachable"

/-- A completion adapter for the `command-r` model. -/
def sampleModel : cohere.CompletionModel := { model := "command-r" }

/-- A wire completion response with one tool call and non-empty text. -/
def sampleToolCallResponse : cohere.CompletionResponse :=
  { text := "I will call a tool"
    generation_id := "gen-1"
    citations := []
    documents := []
    is_search_required := none
    search_queries := []
    search_results := []
    finish_reason := "COMPLETE"
    tool_calls := [{ name := "get_weather"
                     parameters := Json.obj [("city", Json.str "Paris")] }]
    chat_history := [] }

/-- A wire embedding response with one vector (fewer than two documents). -/
def sampleEmbedMismatch : cohere.EmbeddingResponse Nat :=
  { response_type := none, id := "emb-1", embeddings := [[1, 2]]
    texts := ["a", "b"], meta := none }

/-- A wire embedding response with two vectors, matching two documents. -/
def sampleEmbedOk : cohere.EmbeddingResponse Nat :=
  { response_type := none, id := "emb-2", embeddings := [[1, 2], [3, 4]]
    texts := ["a", "b"], meta := none }

/-- The JSON-schema primitive type names that `convert_type_str` maps to
themselves. -/
def primitiveTypes : List String :=
  ["string", "number", "integer", "boolean", "array", "object"]

/-- A canonical tool definition with two primitive-typed properties, one of
them required. -/
def sampleTool5 : completion.ToolDefinition :=
  { name := "get_weather"
    description := "Weather lookup"
    parameters := Json.obj
      [("type", Json.str "object"),
       ("properties", Json.obj
         [("city", Json.obj
            [("type", Json.str "string"),
             ("description", Json.str "City name")]),
          ("days", Json.obj
            [("type", Json.str "integer"),
             ("description", Json.str "Days ahead")])]),
       ("required", Json.arr [Json.str "city"])] }

/-- A completion request whose prompt contains an image content part. -/
def sampleReq7 : completion.CompletionRequest :=
  { preamble := none
    prompt := .user [.image "aW1hZ2U="]
    chat_history := []
    documents := []
    temperature := none
    tools := []
    additional_params := none }

/-- A completion request whose chat history contains a user turn carrying
an image content part (the prompt itself is plain text). -/
def sampleReq7b : completion.CompletionRequest :=
  { preamble := none
    prompt := .user [.text ⟨"hi"⟩]
    chat_history := [.user [.image "aW1hZ2U="]]
    documents := []
    temperature := none
    tools := []
    additional_params := none }

/-- Caller overrides carrying a conflicting temperature value. -/
def sampleParams8 : Json := Json.obj [("temperature", Json.num (9 / 10))]

/-- A completion request with generated temperature 0.5 and an
additional-params override of 0.9. -/
def sampleReq8 : completion.CompletionRequest :=
  { preamble := none
    prompt := .user [.text ⟨"Hello"⟩]
    chat_history := []
    documents := []
    temperature := some (1 / 2)
    tools := []
    additional_params := some sampleParams8 }

/-- The wire body generated for `sampleReq8` before the merge. -/
def sampleFields8 : List (String × Json) :=
  [("model", Json.str "command-r"),
   ("preamble", Json.null),
   ("message", Json.str "Hello"),
   ("documents", Json.arr []),
   ("chat_history", Json.arr []),
   ("temperature", Json.num (1 / 2)),
   ("tools", Json.arr [])]

/-- A completion request whose chat history contains an assistant turn. -/
def sampleReq9 : completion.CompletionRequest :=
  { preamble := none
    prompt := .user [.text ⟨"hi"⟩]
    chat_history := [.assistant [.text "hello"]]
    documents := []
    temperature := none
    tools := []
    additional_params := none }

/-- A minimal completion request with a plain text prompt. -/
def sampleReq10 : completion.CompletionRequest :=
  { preamble := none
    prompt := .user [.text ⟨"hi"⟩]
    chat_history := []
    documents := []
    temperature := none
    tools := []
    additional_params := none }

/-- The wire body generated for `sampleReq10` under the COMMAND_R_PLUS
model name. -/
def sampleFields10 : List (String × Json) :=
  [("model", Json.str "comman-r-plus"),
   ("preamble", Json.null),
   ("message", Json.str "hi"),
   ("documents", Json.arr []),
   ("chat_history", Json.arr []),
   ("temperature", Json.null),
   ("tools", Json.arr [])]

/-! Helper lemmas on lists, shared by the claim theorems. -/

/-- Length of the zipped-and-wrapped embedding list. -/
theorem zipEmbedLength (F : Type) (es : List (List F)) (ds : List String) :
    ((es.zip ds).map (fun p => cohere.Embedding.mk p.2 p.1)).length
      = min es.length ds.length := by
  simp

/-- Pointwise content of the zipped-and-wrapped embedding list. -/
theorem zipEmbedGet (F : Type) :
    ∀ (es : List (List F)) (ds : List String) (i : Nat)
      (h1 : i < es.length) (h2 : i < ds.length),
      ((es.zip ds).map (fun p => cohere.Embedding.mk p.2 p.1)).get? i
        = some ⟨ds[i], es[i]⟩ := by
  intro es
  induction es with
  | nil => intro ds i h1 h2; exact absurd h1 (by simp)
  | cons e es ih =>
    intro ds i h1 h2
    cases ds with
    | nil => exact absurd h2 (by simp)
    | cons d ds =>
      cases i with
      | zero => rfl
      | succ i =>
        simpa using ih ds i (by simpa using h1) (by simpa using h2)

/-- C1: for every Cohere wire completion response, a non-empty tool_calls
list yields a choice with exactly one ToolCall entry per wire call in the
same order, each carrying the call name as both identifier and name, and no
Text entry even when the wire text is non-empty; an empty tool_calls list
yields exactly one Text entry equal to the wire text field. -/
theorem c1_tool_call_exclusivity (r : cohere.CompletionResponse) :
    (r.tool_calls ≠ [] →
      cohere.completionResponseChoice r
        = r.tool_calls.map (fun tc =>
            completion.AssistantContent.toolCall tc.name tc.name tc.parameters)
      ∧ ∀ c ∈ cohere.completionResponseChoice r, ∀ s,
          c ≠ completion.AssistantContent.text s)
    ∧ (r.tool_calls = [] →
      cohere.completionResponseChoice r
        = [completion.AssistantContent.text r.text]) := by
  constructor
  · intro h
    have hne : r.tool_calls.isEmpty = false := by
      cases htc : r.tool_calls with
      | nil => exact absurd htc h
      | cons a as => rfl
    refine ⟨by simp [cohere.completionResponseChoice, hne], ?_⟩
    intro c hc s
    simp [cohere.completionResponseChoice, hne] at hc
    obtain ⟨tc, _, rfl⟩ := hc
    simp
  · intro h
    simp [cohere.completionResponseChoice, h]

/-- Witness for C1 at a concrete response carrying one tool call and
non-empty text. -/
theorem c1_tool_call_exclusivity_witness :
    cohere.completionResponseChoice sampleToolCallResponse
      = [completion.AssistantContent.toolCall "get_weather" "get_weather"
          (Json.obj [("city", Json.str "Paris")])]
    ∧ ∀ c ∈ cohere.completionResponseChoice sampleToolCallResponse, ∀ s,
        c ≠ completion.AssistantContent.text s := by
  have h := (c1_tool_call_exclusivity sampleToolCallResponse).1
    (by simp [sampleToolCallResponse])
  exact ⟨h.1, h.2⟩

/-- C2: for every batch of documents, a successfully parsed embedding
response whose vector count differs from the document count makes
embed_texts return EmbeddingError.DocumentError, never a truncated or
padded result. -/
theorem c2_embedding_count_mismatch (F : Type) (documents : List String)
    (r : cohere.EmbeddingResponse F)
    (h : r.embeddings.length ≠ documents.length) :
    cohere.embed_texts F documents (.ok r)
      = .error (.documentError
          (cohere.mismatchMsg documents.length r.embeddings.length)) := by
  simp [cohere.embed_texts, h]

/-- Witness for C2: two documents, one returned vector. -/
theorem c2_embedding_count_mismatch_witness :
    cohere.embed_texts Nat ["a", "b"] (.ok sampleEmbedMismatch)
      = .error (.documentError (cohere.mismatchMsg 2 1)) :=
  c2_embedding_count_mismatch Nat ["a", "b"] sampleEmbedMismatch (by decide)

/-- C3: when embed_texts succeeds on N documents it returns exactly N
embeddings, and the i-th entry pairs the i-th input document with the i-th
vector of the provider response. -/
theorem c3_embedding_order (F : Type) (documents : List String)
    (r : cohere.EmbeddingResponse F) (out : List (cohere.Embedding F))
    (h : cohere.embed_texts F documents (.ok r) = .ok out) :
    out.length = documents.length
    ∧ ∀ (i : Nat) (h1 : i < documents.length) (h2 : i < r.embeddings.length),
        out.get? i = some ⟨documents[i], r.embeddings[i]⟩ := by
  unfold cohere.embed_texts at h
  by_cases hlen : r.embeddings.length = documents.length
  · simp [hlen] at h
    constructor
    · rw [← h]
      simpa using le_of_eq hlen.symm
    · intro i h1 h2
      rw [← h]
      exact zipEmbedGet F r.embeddings documents i h2 h1
  · simp [hlen] at h

/-- Witness for C3 at two concrete documents and two concrete vectors. -/
theorem c3_embedding_order_witness :
    ([⟨"a", [1, 2]⟩, ⟨"b", [3, 4]⟩] : List (cohere.Embedding Nat)).length = 2
    ∧ ([⟨"a", [1, 2]⟩, ⟨"b", [3, 4]⟩] : List (cohere.Embedding Nat)).get? 1
        = some ⟨"b", [3, 4]⟩ := by
  have h := c3_embedding_order Nat ["a", "b"] sampleEmbedOk
    [⟨"a", [1, 2]⟩, ⟨"b", [3, 4]⟩] rfl
  exact ⟨h.1, h.2 1 (by decide) (by decide)⟩

/-- C4: the claim says a canonical tool definition whose parameter schema
lacks a required schema field converts to a typed ConversionError and never
terminates the process, as the spec's error-handling design requires; the
code instead panics through `.expect` (a process abort) in each of those
cases, so this theorem records the code's actual behaviour at the claim's
failing inputs. -/
theorem c4_tool_conversion_panics :
    cohere.toolDefinitionFrom
        { name := "get_weather", description := "Weather lookup"
          parameters := Json.obj [] }
      = .panicked "Tool properties should exist"
    ∧ cohere.toolDefinitionFrom
        { name := "t2", description := "d2"
          parameters := Json.obj [("properties", Json.str "oops")] }
      = .panicked "Tool properties should be an object"
    ∧ cohere.toolDefinitionFrom
        { name := "t3", description := "d3"
          parameters := Json.obj
            [("properties",
              Json.obj [("city", Json.obj [("type", Json.str "string")])])] }
      = .panicked "Argument description should exist" :=
  ⟨rfl, rfl, rfl⟩

/-- A primitive type name is mapped to itself by `convert_type_str`. -/
theorem convert_type_str_of_mem (s : String) (h : s ∈ primitiveTypes) :
    cohere.convert_type_str s = s := by
  fin_cases h <;> rfl

/-- A non-primitive type name is mapped to "string" by
`convert_type_str`. -/
theorem convert_type_str_of_not_mem (s : String) (h : s ∉ primitiveTypes) :
    cohere.convert_type_str s = "string" := by
  simp [primitiveTypes] at h
  obtain ⟨h1, h2, h3, h4, h5, h6⟩ := h
  unfold cohere.convert_type_str
  split <;> simp_all

/-- Projecting the wrapped strings back out of a JSON string list. -/
theorem filterMap_asStr_map_str (l : List String) :
    List.filterMap (Json.asStr ∘ Json.str) l = l := by
  induction l with
  | nil => rfl
  | cons s rest ih => simp [Json.asStr, ih]

/-- Successful conversion of a well-formed property list: one parameter per
property, in order, with its description, its (primitive) type, and the
required flag computed by membership in the required list. -/
theorem convertProperties_ok (reqs : List String) :
    ∀ (props : List (String × Json)),
      (∀ p ∈ props, ∃ desc ty,
        p.2.getField "description" = some (Json.str desc)
        ∧ p.2.getField "type" = some (Json.str ty)
        ∧ ty ∈ primitiveTypes) →
      ∃ defs, cohere.convertProperties reqs props = .ok defs
        ∧ defs.length = props.length
        ∧ ∀ (i : Nat) (h1 : i < props.length),
            ∃ param, defs.get? i = some ((props[i]).1, param)
              ∧ (props[i]).2.getField "description"
                  = some (Json.str param.description)
              ∧ (props[i]).2.getField "type" = some (Json.str param.type)
              ∧ param.required = reqs.contains (props[i]).1 := by
  intro props
  induction props with
  | nil =>
    intro _
    exact ⟨[], rfl, rfl, fun i h1 => absurd h1 (by simp)⟩
  | cons hd rest ih =>
    intro hall
    obtain ⟨desc, ty, hdesc, hty, hprim⟩ := hall hd (by simp)
    obtain ⟨defs, hconv, hlen, hpt⟩ := ih (fun p hp => hall p (by simp [hp]))
    refine ⟨(hd.1, { description := desc
                     type := cohere.convert_type (Json.str ty)
                     required := reqs.contains hd.1 }) :: defs, ?_, ?_, ?_⟩
    · simp [cohere.convertProperties, cohere.convertProperty, hdesc, hty,
        Json.asStr, hconv]
    · simpa using hlen
    · intro i h1
      cases i with
      | zero =>
        refine ⟨_, rfl, by simpa using hdesc, ?_, rfl⟩
        have : cohere.convert_type (Json.str ty) = ty := by
          show cohere.convert_type_str ty = ty
          exact convert_type_str_of_mem ty hprim
        rw [this]
        simpa using hty
      | succ i =>
        have h1' : i < rest.length := by simpa using h1
        obtain ⟨param, hget, hd', ht', hr'⟩ := hpt i h1'
        exact ⟨param, by simpa using hget, by simpa using hd',
          by simpa using ht', by simpa using hr'⟩

/-- C5: converting a canonical tool definition whose parameters are all
primitive-typed and carry a required list preserves the tool name and
description, produces exactly the canonical properties (same count, same
names, same descriptions and types), and marks a parameter required exactly
when its name is in the canonical required array. -/
theorem c5_tool_conversion_preserves (tool : completion.ToolDefinition)
    (props : List (String × Json)) (reqNames : List String)
    (hp : tool.parameters.getField "properties" = some (Json.obj props))
    (hr : tool.parameters.getField "required"
        = some (Json.arr (reqNames.map Json.str)))
    (hprops : ∀ p ∈ props, ∃ desc ty,
        p.2.getField "description" = some (Json.str desc)
        ∧ p.2.getField "type" = some (Json.str ty)
        ∧ ty ∈ primitiveTypes) :
    ∃ defs, cohere.toolDefinitionFrom tool
        = .ok { name := tool.name
                description := tool.description
                parameter_definitions := defs }
      ∧ defs.length = props.length
      ∧ ∀ (i : Nat) (h1 : i < props.length),
          ∃ param, defs.get? i = some ((props[i]).1, param)
            ∧ (props[i]).2.getField "description"
                = some (Json.str param.description)
            ∧ (props[i]).2.getField "type" = some (Json.str param.type)
            ∧ param.required = reqNames.contains (props[i]).1 := by
  obtain ⟨defs, hconv, hlen, hpt⟩ := convertProperties_ok reqNames props hprops
  refine ⟨defs, ?_, hlen, hpt⟩
  simp [cohere.toolDefinitionFrom, hp, hr, Json.asArray, Json.asObject,
    filterMap_asStr_map_str, hconv]

/-- Witness for C5 at a concrete two-parameter tool with one required
parameter. -/
theorem c5_tool_conversion_preserves_witness :
    ∃ defs, cohere.toolDefinitionFrom sampleTool5
        = .ok { name := "get_weather"
                description := "Weather lookup"
                parameter_definitions := defs }
      ∧ defs.length = 2
      ∧ ∃ param, defs.get? 0 = some ("city", param) ∧ param.required = true := by
  obtain ⟨defs, hconv, hlen, hpt⟩ :=
    c5_tool_conversion_preserves sampleTool5
      [("city", Json.obj
          [("type", Json.str "string"),
           ("description", Json.str "City name")]),
       ("days", Json.obj
          [("type", Json.str "integer"),
           ("description", Json.str "Days ahead")])]
      ["city"] rfl rfl
      (by
        intro p hp
        simp at hp
        rcases hp with h | h <;> subst h
        · exact ⟨"City name", "string", rfl, rfl, by decide⟩
        · exact ⟨"Days ahead", "integer", rfl, rfl, by decide⟩)
  obtain ⟨param, hget, _, _, hreq⟩ := hpt 0 (by decide)
  exact ⟨defs, hconv, hlen, param, hget, by simpa using hreq⟩

/-- The union-member search of `convert_type` on a list of string members
agrees with searching the underlying strings for the first one that is not
"null". -/
theorem find?_nonNull_map_str (ts : List String) :
    (ts.map Json.str).find? (fun t => t.asStr ≠ some "null")
      = (ts.find? (fun t => t ≠ "null")).map Json.str := by
  induction ts with
  | nil => rfl
  | cons t ts ih =>
    rw [List.map_cons]
    by_cases h : t = "null"
    · subst h
      rw [List.find?_cons_of_neg _ (by simp [Json.asStr]),
          List.find?_cons_of_neg _ (by simp)]
      exact ih
    · rw [List.find?_cons_of_pos _ (by simp [Json.asStr, h]),
          List.find?_cons_of_pos _ (by simp [h])]
      rfl

/-- C6: the type-degradation function is a pure function following the
fixed policy: a string type is mapped through the primitive table; a union
(array of type names) picks its first member different from "null"
(defaulting to "string" when there is none); primitive names are preserved,
any other name degrades to "string"; and any JSON value that is neither a
string nor an array degrades to "string". -/
theorem c6_convert_type_policy :
    (∀ s, cohere.convert_type (Json.str s) = cohere.convert_type_str s)
    ∧ (∀ ts : List String,
        cohere.convert_type (Json.arr (ts.map Json.str))
          = cohere.convert_type_str
              ((ts.find? (fun t => t ≠ "null")).getD "string"))
    ∧ (∀ s, s ∈ primitiveTypes → cohere.convert_type_str s = s)
    ∧ (∀ s, s ∉ primitiveTypes → cohere.convert_type_str s = "string")
    ∧ (∀ j : Json, (∀ s, j ≠ Json.str s) → (∀ es, j ≠ Json.arr es) →
        cohere.convert_type j = "string") := by
  refine ⟨fun s => rfl, ?_, convert_type_str_of_mem,
    convert_type_str_of_not_mem, ?_⟩
  · intro ts
    show cohere.convert_type_str _ = _
    rw [find?_nonNull_map_str]
    cases ts.find? (fun t => t ≠ "null") with
    | none => rfl
    | some t => rfl
  · intro j h1 h2
    cases j with
    | null => rfl
    | bool b => rfl
    | num q => rfl
    | str s => exact absurd rfl (h1 s)
    | arr es => exact absurd rfl (h2 es)
    | obj fields => rfl

/-- Witness for C6: a union skips the "null" member, an unknown name and a
non-string non-array value degrade to "string". -/
theorem c6_convert_type_policy_witness :
    cohere.convert_type (Json.arr (["null", "integer"].map Json.str))
      = "integer"
    ∧ cohere.convert_type (Json.str "date") = "string"
    ∧ cohere.convert_type Json.null = "string" := by
  refine ⟨?_, ?_, ?_⟩
  · rw [c6_convert_type_policy.2.1 ["null", "integer"]]
    decide
  · rw [c6_convert_type_policy.1 "date"]
    exact c6_convert_type_policy.2.2.2.1 "date" (by decide)
  · exact c6_convert_type_policy.2.2.2.2 Json.null
      (fun s h => nomatch h) (fun es h => nomatch h)

/-- A prompt content list containing a non-text part always converts to the
text-content error. -/
theorem promptTexts_err :
    ∀ (content : List message.UserContent) (c : message.UserContent),
      c ∈ content → (∀ t, c ≠ .text t) →
      cohere.promptTexts content
        = .error (.requestError "Only text content is supported by Cohere") := by
  intro content
  induction content with
  | nil => intro c hc _; exact absurd hc (by simp)
  | cons hd rest ih =>
    intro c hc hnt
    rcases List.mem_cons.mp hc with rfl | hmem
    · cases c with
      | text t => exact absurd rfl (hnt t)
      | toolResult id ct => rfl
      | image d => rfl
      | audio d => rfl
    · cases hd with
      | text t => simp [cohere.promptTexts, ih c hmem hnt]
      | toolResult id ct => rfl
      | image d => rfl
      | audio d => rfl

/-- Every non-user canonical message converts to the only-user-messages
error. -/
theorem messageTryInto_nonuser (m : message.Message)
    (h : ∀ content, m ≠ .user content) :
    cohere.messageTryInto m
      = .error (.conversionError "Only user messages are supported by Cohere") := by
  cases m with
  | user content => exact absurd rfl (h content)
  | assistant c => rfl
  | tool id c => rfl
  | system c => rfl

/-- A chat history containing a non-user message always fails to convert. -/
theorem chatHistoryConv_err :
    ∀ (history : List message.Message) (m : message.Message),
      m ∈ history → (∀ content, m ≠ .user content) →
      ∃ msg, cohere.chatHistoryConv history
        = .error (.conversionError msg) := by
  intro history
  induction history with
  | nil => intro m hm _; exact absurd hm (by simp)
  | cons hd rest ih =>
    intro m hm hnu
    rcases List.mem_cons.mp hm with rfl | hmem
    · exact ⟨"Only user messages are supported by Cohere",
        by simp [cohere.chatHistoryConv, messageTryInto_nonuser m hnu]⟩
    · cases hh : cohere.messageTryInto hd with
      | error e =>
        cases e with
        | conversionError s =>
          exact ⟨s, by simp [cohere.chatHistoryConv, hh]⟩
      | ok ms =>
        obtain ⟨msg, hrest⟩ := ih m hmem hnu
        exact ⟨msg, by simp [cohere.chatHistoryConv, hh, hrest]⟩

/-- Every wire message produced by converting a canonical user message is a
wire User message. -/
theorem userContentsToMessages_user_shape :
    ∀ (content : List message.UserContent) (msgs : List cohere.Message),
      cohere.userContentsToMessages content = .ok msgs →
      ∀ w ∈ msgs, ∃ s tcs, w = cohere.Message.user s tcs := by
  intro content
  induction content with
  | nil =>
    intro msgs h w hw
    injection h with h
    subst h
    exact absurd hw (by simp)
  | cons c rest ih =>
    intro msgs h w hw
    cases c with
    | text t =>
      cases hrest : cohere.userContentsToMessages rest with
      | ok ms =>
        rw [show cohere.userContentsToMessages (message.UserContent.text t :: rest)
            = .ok (cohere.Message.user t.text [] :: ms) by
          simp [cohere.userContentsToMessages, hrest]] at h
        injection h with h
        subst h
        rcases List.mem_cons.mp hw with rfl | hmem
        · exact ⟨t.text, [], rfl⟩
        · exact ih ms hrest w hmem
      | error e =>
        rw [show cohere.userContentsToMessages (message.UserContent.text t :: rest)
            = .error e by simp [cohere.userContentsToMessages, hrest]] at h
        exact absurd h (by simp)
    | toolResult id ct => exact absurd h (by simp [cohere.userContentsToMessages])
    | image d => exact absurd h (by simp [cohere.userContentsToMessages])
    | audio d => exact absurd h (by simp [cohere.userContentsToMessages])

/-- A user message whose content list contains a non-text part always
converts to the text-content error. -/
theorem userContentsToMessages_err :
    ∀ (content : List message.UserContent) (c : message.UserContent),
      c ∈ content → (∀ t, c ≠ .text t) →
      cohere.userContentsToMessages content
        = .error (.conversionError "Only text content is supported by Cohere") := by
  intro content
  induction content with
  | nil => intro c hc _; exact absurd hc (by simp)
  | cons hd rest ih =>
    intro c hc hnt
    rcases List.mem_cons.mp hc with rfl | hmem
    · cases c with
      | text t => exact absurd rfl (hnt t)
      | toolResult id ct => rfl
      | image d => rfl
      | audio d => rfl
    · cases hd with
      | text t => simp [cohere.userContentsToMessages, ih c hmem hnt]
      | toolResult id ct => rfl
      | image d => rfl
      | audio d => rfl

/-- A chat history containing any message that fails to convert always
fails to convert as a whole, with a conversion error. -/
theorem chatHistoryConv_err_of_error :
    ∀ (history : List message.Message) (m : message.Message)
      (e : message.MessageError),
      m ∈ history → cohere.messageTryInto m = .error e →
      ∃ msg, cohere.chatHistoryConv history
        = .error (.conversionError msg) := by
  intro history
  induction history with
  | nil => intro m e hm _; exact absurd hm (by simp)
  | cons hd rest ih =>
    intro m e hm he
    rcases List.mem_cons.mp hm with rfl | hmem
    · cases e with
      | conversionError s =>
        exact ⟨s, by simp [cohere.chatHistoryConv, he]⟩
    · cases hh : cohere.messageTryInto hd with
      | error e1 =>
        cases e1 with
        | conversionError s =>
          exact ⟨s, by simp [cohere.chatHistoryConv, hh]⟩
      | ok ms =>
        obtain ⟨msg, hrest⟩ := ih m e hmem he
        exact ⟨msg, by simp [cohere.chatHistoryConv, hh, hrest]⟩

/-- C7: a completion request whose prompt or chat history contains a
content part the Cohere adapter cannot represent (anything but text, for
example an image part in a user message) ends with a typed conversion
error and an empty list of issued wire calls: the error is detected before
any HTTP request. -/
theorem c7_conversion_before_network (transport : Json → cohere.TransportResponse)
    (self : cohere.CompletionModel) (req : completion.CompletionRequest)
    (h : (∃ content c, req.prompt = .user content
            ∧ c ∈ content ∧ ∀ t, c ≠ message.UserContent.text t)
       ∨ (∃ m content c, m ∈ req.chat_history ∧ m = .user content
            ∧ c ∈ content ∧ ∀ t, c ≠ message.UserContent.text t)) :
    (cohere.completionRun transport self req).1 = []
    ∧ ∃ msg, (cohere.completionRun transport self req).2
        = .err (.requestError msg) := by
  rcases h with ⟨content, c, hprompt, hc, hnt⟩ | ⟨m, content, c, hm, hmu, hc, hnt⟩
  · cases hh : cohere.chatHistoryConv req.chat_history with
    | error e =>
      cases e with
      | conversionError s =>
        refine ⟨?_, s, ?_⟩ <;>
          simp [cohere.completionRun, cohere.buildRequestCore, hh,
            McpRigMessageErrorInto]
    | ok hist =>
      have hp : cohere.promptConv req.prompt
          = .error (.requestError "Only text content is supported by Cohere") := by
        rw [hprompt]
        simp [cohere.promptConv, promptTexts_err content c hc hnt]
      refine ⟨?_, "Only text content is supported by Cohere", ?_⟩ <;>
        simp [cohere.completionRun, cohere.buildRequestCore, hh, hp]
  · have he : cohere.messageTryInto m
        = .error (.conversionError "Only text content is supported by Cohere") := by
      subst hmu
      simpa [cohere.messageTryInto] using userContentsToMessages_err content c hc hnt
    obtain ⟨msg, hcv⟩ := chatHistoryConv_err_of_error req.chat_history m _ hm he
    refine ⟨?_, msg, ?_⟩ <;>
      simp [cohere.completionRun, cohere.buildRequestCore, hcv,
        McpRigMessageErrorInto]

/-- Witness for C7 at a request whose prompt carries an image part and at
a request whose chat history carries a user turn with an image part. -/
theorem c7_conversion_before_network_witness :
    ((cohere.completionRun sampleTransport sampleModel sampleReq7).1 = []
      ∧ ∃ msg, (cohere.completionRun sampleTransport sampleModel sampleReq7).2
          = .err (.requestError msg))
    ∧ ((cohere.completionRun sampleTransport sampleModel sampleReq7b).1 = []
      ∧ ∃ msg, (cohere.completionRun sampleTransport sampleModel sampleReq7b).2
          = .err (.requestError msg)) :=
  ⟨c7_conversion_before_network sampleTransport sampleModel sampleReq7
      (Or.inl ⟨[message.UserContent.image "aW1hZ2U="],
        message.UserContent.image "aW1hZ2U=", rfl, by simp,
        fun t h => nomatch h⟩),
   c7_conversion_before_network sampleTransport sampleModel sampleReq7b
      (Or.inr ⟨message.Message.user [message.UserContent.image "aW1hZ2U="],
        [message.UserContent.image "aW1hZ2U="],
        message.UserContent.image "aW1hZ2U=", by simp [sampleReq7b], rfl,
        by simp, fun t h => nomatch h⟩)⟩

/-- Lookup in an appended association list: the left list wins. -/
theorem lookupField_append (l1 l2 : List (String × Json)) (k : String) :
    lookupField (l1 ++ l2) k
      = match lookupField l1 k with
        | some v => some v
        | none => lookupField l2 k := by
  induction l1 with
  | nil => rfl
  | cons kv rest ih =>
    obtain ⟨k1, v1⟩ := kv
    by_cases h : k1 = k
    · simp [lookupField, h]
    · simp [lookupField, h, ih]

/-- Lookup in the merged-base part of a merge: base keys stay, their values
merged with the update value of the same key when it exists. -/
theorem lookup_mergeInto (fb : List (String × Json)) :
    ∀ (fa : List (String × Json)) (k : String),
      lookupField (json_utils.mergeInto fa fb) k
        = match lookupField fa k with
          | some v => some (match lookupField fb k with
                            | some uv => json_utils.merge v uv
                            | none => v)
          | none => none := by
  intro fa
  induction fa with
  | nil => intro k; rfl
  | cons kv rest ih =>
    obtain ⟨k1, v1⟩ := kv
    intro k
    by_cases h : k1 = k
    · subst h
      cases hfb : lookupField fb k1 with
      | some uv => simp [json_utils.mergeInto, lookupField, hfb]
      | none => simp [json_utils.mergeInto, lookupField, hfb]
    · cases hfb : lookupField fb k1 with
      | some uv => simp [json_utils.mergeInto, lookupField, hfb, h, ih]
      | none => simp [json_utils.mergeInto, lookupField, hfb, h, ih]

/-- Lookup of a key absent from the base in the new-keys part of a merge. -/
theorem lookup_filter_new (fa fb : List (String × Json)) (k : String)
    (h : lookupField fa k = none) :
    lookupField (fb.filter (fun kv => (lookupField fa kv.1).isNone)) k
      = lookupField fb k := by
  induction fb with
  | nil => rfl
  | cons kv rest ih =>
    obtain ⟨k1, v1⟩ := kv
    by_cases hk : k1 = k
    · subst hk
      simp [List.filter_cons, lookupField, h]
    · by_cases hpred : (lookupField fa k1).isNone
      · simp [List.filter_cons, hpred, lookupField, hk, ih]
      · simp [List.filter_cons, hpred, lookupField, hk, ih]

/-- Merging anything with a non-object update value yields the update
value (the spec's "override for scalars and arrays"). -/
theorem merge_scalar (u v : Json) (h : ∀ flds, v ≠ .obj flds) :
    json_utils.merge u v = v := by
  cases u <;> cases v <;> first | rfl | exact absurd rfl (h _)

/-- Caller precedence of the merge: a non-object update value at key `k`
is the merged object's value at `k`. -/
theorem merge_obj_precedence (fa fb : List (String × Json)) (k : String)
    (v : Json) (hv : lookupField fb k = some v)
    (hs : ∀ flds, v ≠ Json.obj flds) :
    (json_utils.merge (.obj fa) (.obj fb)).getField k = some v := by
  show lookupField (json_utils.mergeInto fa fb
      ++ fb.filter (fun kv => (lookupField fa kv.1).isNone)) k = some v
  rw [lookupField_append, lookup_mergeInto]
  cases hfa : lookupField fa k with
  | some bv => simp [hv, merge_scalar bv v hs]
  | none => simp [lookup_filter_new fa fb k hfa, hv]

/-- C8: on a request whose generated wire body is `r`, the single body sent
is `merge r p` when `additional_params = some p` and `r` itself when
`additional_params = none`; and the merge gives caller values precedence on
key conflicts (a non-object caller value at a key is the merged body's
value at that key). -/
theorem c8_additional_params_merge (transport : Json → cohere.TransportResponse)
    (self : cohere.CompletionModel) (req : completion.CompletionRequest)
    (r p : Json)
    (hcore : cohere.buildRequestCore self.model req = .ok r) :
    (req.additional_params = some p →
      (cohere.completionRun transport self req).1 = [json_utils.merge r p])
    ∧ (req.additional_params = none →
      (cohere.completionRun transport self req).1 = [r])
    ∧ ∀ (fa fb : List (String × Json)) (k : String) (v : Json),
        lookupField fb k = some v → (∀ flds, v ≠ Json.obj flds) →
        (json_utils.merge (.obj fa) (.obj fb)).getField k = some v := by
  refine ⟨?_, ?_, merge_obj_precedence⟩
  · intro hp
    simp [cohere.completionRun, hcore, hp]
  · intro hp
    simp [cohere.completionRun, hcore, hp]

/-- Witness for C8: generated temperature 0.5 overridden to 0.9 by
additional params on a concrete request. -/
theorem c8_additional_params_merge_witness :
    (cohere.completionRun sampleTransport sampleModel sampleReq8).1
      = [json_utils.merge (Json.obj sampleFields8) sampleParams8]
    ∧ (json_utils.merge (Json.obj sampleFields8) sampleParams8).getField
        "temperature" = some (Json.num (9 / 10)) := by
  have h := c8_additional_params_merge sampleTransport sampleModel sampleReq8
    (Json.obj sampleFields8) sampleParams8 rfl
  exact ⟨h.1 rfl,
    h.2.2 sampleFields8 [("temperature", Json.num (9 / 10))] "temperature"
      (Json.num (9 / 10)) rfl (fun flds hh => nomatch hh)⟩

/-- C9: every non-user canonical message converts to the ConversionError
"Only user messages are supported by Cohere"; a completion whose chat
history contains such a message fails with a typed request error and issues
zero network calls; and a successful message conversion only ever produces
wire User messages (never Chatbot, Tool, or System). -/
theorem c9_non_user_rejected :
    (∀ m : message.Message, (∀ content, m ≠ .user content) →
      cohere.messageTryInto m
        = .error (.conversionError "Only user messages are supported by Cohere"))
    ∧ (∀ (transport : Json → cohere.TransportResponse)
        (self : cohere.CompletionModel) (req : completion.CompletionRequest)
        (m : message.Message),
        m ∈ req.chat_history → (∀ content, m ≠ .user content) →
        (cohere.completionRun transport self req).1 = []
        ∧ ∃ msg, (cohere.completionRun transport self req).2
            = .err (.requestError msg))
    ∧ (∀ (m : message.Message) (msgs : List cohere.Message),
        cohere.messageTryInto m = .ok msgs →
        ∀ w ∈ msgs, ∃ s tcs, w = cohere.Message.user s tcs) := by
  refine ⟨messageTryInto_nonuser, ?_, ?_⟩
  · intro transport self req m hm hnu
    obtain ⟨msg, hcv⟩ := chatHistoryConv_err req.chat_history m hm hnu
    refine ⟨?_, msg, ?_⟩ <;>
      simp [cohere.completionRun, cohere.buildRequestCore, hcv,
        McpRigMessageErrorInto]
  · intro m msgs h
    cases m with
    | user content => exact userContentsToMessages_user_shape content msgs h
    | assistant c => simp [cohere.messageTryInto] at h
    | tool id c => simp [cohere.messageTryInto] at h
    | system c => simp [cohere.messageTryInto] at h

/-- Witness for C9: a system message is rejected, and a completion with an
assistant turn in its history issues no network call. -/
theorem c9_non_user_rejected_witness :
    cohere.messageTryInto (message.Message.system "Be terse")
      = .error (.conversionError "Only user messages are supported by Cohere")
    ∧ (cohere.completionRun sampleTransport sampleModel sampleReq9).1 = [] := by
  refine ⟨c9_non_user_rejected.1 _ (fun c h => nomatch h), ?_⟩
  exact (c9_non_user_rejected.2.1 sampleTransport sampleModel sampleReq9
    (message.Message.assistant [.text "hello"]) (by simp [sampleReq9])
    (fun c h => nomatch h)).1

/-- The generated wire body always carries the adapter's model string in
its "model" field. -/
theorem buildRequestCore_model_field (model : String)
    (req : completion.CompletionRequest) (r : Json)
    (h : cohere.buildRequestCore model req = .ok r) :
    r.getField "model" = some (Json.str model) := by
  unfold cohere.buildRequestCore at h
  cases h1 : cohere.chatHistoryConv req.chat_history with
  | error e => rw [h1] at h; simp at h
  | ok hist =>
    rw [h1] at h
    cases h2 : cohere.promptConv req.prompt with
    | error e => rw [h2] at h; simp at h
    | ok msg =>
      rw [h2] at h
      cases h3 : cohere.toolsConv req.tools with
      | panicked m => rw [h3] at h; simp at h
      | ok tools =>
        rw [h3] at h
        simp at h
        subst h
        rfl

/-- C10: the public constant COMMAND_R_PLUS equals the misspelled string
"comman-r-plus"; the wire body generated for a completion under that model
name carries "comman-r-plus" as its model field; and (absent additional
params) the body actually sent carries it too. -/
theorem c10_command_r_plus_typo :
    cohere.COMMAND_R_PLUS = "comman-r-plus"
    ∧ (∀ (req : completion.CompletionRequest) (r : Json),
        cohere.buildRequestCore cohere.COMMAND_R_PLUS req = .ok r →
        r.getField "model" = some (Json.str "comman-r-plus"))
    ∧ (∀ (transport : Json → cohere.TransportResponse)
        (req : completion.CompletionRequest) (r : Json),
        req.additional_params = none →
        cohere.buildRequestCore cohere.COMMAND_R_PLUS req = .ok r →
        ∀ b ∈ (cohere.completionRun transport
            ⟨cohere.COMMAND_R_PLUS⟩ req).1,
          b.getField "model" = some (Json.str "comman-r-plus")) := by
  refine ⟨rfl, ?_, ?_⟩
  · intro req r h
    exact buildRequestCore_model_field cohere.COMMAND_R_PLUS req r h
  · intro transport req r hnone h b hb
    simp [cohere.completionRun, h, hnone] at hb
    subst hb
    exact buildRequestCore_model_field cohere.COMMAND_R_PLUS req b h

/-- Witness for C10 at a concrete minimal request. -/
theorem c10_command_r_plus_typo_witness :
    (Json.obj sampleFields10).getField "model"
      = some (Json.str "comman-r-plus")
    ∧ ∀ b ∈ (cohere.completionRun sampleTransport
        ⟨cohere.COMMAND_R_PLUS⟩ sampleReq10).1,
        b.getField "model" = some (Json.str "comman-r-plus") :=
  ⟨c10_command_r_plus_typo.2.1 sampleReq10 (Json.obj sampleFields10) rfl,
   c10_command_r_plus_typo.2.2 sampleTransport sampleReq10
     (Json.obj sampleFields10) rfl rfl⟩

end McpRig
